import Mathlib

/-!
# A shallow embedding of the AirBnB-clone persistence layer

This file embeds the record base contract (`models/base_model.py`) and the
file-storage engine (`models/engine/file_storage.py`) of the repository and
proves the spec's testable properties about them.

Modelling choices:
* A Python instance `__dict__` (and likewise a JSON object) is an
  insertion-ordered association list `List (String × Value)`.  Assignment to
  an existing key keeps its position; a fresh key is appended — exactly
  Python-dict semantics (`pyInsert`).
* `datetime` objects are natural numbers (microseconds since an epoch).
  `isoformat` renders them as an injective string encoding and
  `fromisoformat` parses such strings back, failing on anything else — the
  two properties of CPython's pair that the code relies on.
* Each call of `datetime.utcnow()` reads a clock stream `clock : Nat → Nat`
  at a call index; `BaseModel.__init__` performs two successive reads
  (source lines 131–132), `BaseModel.save` one.
* `uuid.uuid4()` is a generator from a seed; the code only relies on the
  result being a (non-empty) string.
* Fallible Python operations return `Except PyErr`; a `KeyError`,
  `ValueError`, `TypeError` or `AttributeError` that the source does not
  catch is an `Except.error` that propagates.
-/

namespace HBnB

/-- Python attribute values as they occur in this code base: strings,
`datetime` objects, and numbers. -/
inductive Value where
  | str (s : String)
  | dtime (t : Nat)
  | int (n : Int)
deriving DecidableEq, Repr

/-- An insertion-ordered Python dict with string keys. -/
abbrev PyDict (α : Type) : Type := List (String × α)

/-- An instance `__dict__` / a JSON object of a record. -/
abbrev Attrs : Type := PyDict Value

/-- Python-dict assignment `d[k] = v`: overwrite in place if `k` is present,
append otherwise. -/
def pyInsert {α : Type} (k : String) (v : α) : PyDict α → PyDict α
  | [] => [(k, v)]
  | (k', v') :: rest => if k' = k then (k, v) :: rest else (k', v') :: pyInsert k v rest

/-- Python-dict lookup `d[k]` (as an `Option`). -/
def pyLookup {α : Type} (k : String) : PyDict α → Option α
  | [] => none
  | (k', v') :: rest => if k' = k then some v' else pyLookup k rest

/-- The key list of a dict, in insertion order. -/
def keysOf {α : Type} (l : PyDict α) : List String := l.map Prod.fst

/-- The uncaught Python exceptions this code can raise. -/
inductive PyErr where
  | keyErr (k : String)
  | valueErr
  | typeErr
  | attrErr (k : String)
deriving DecidableEq, Repr

/-- Python's `datetime.isoformat`: an injective rendering of a timestamp as a string.
The code relies on it being parseable back by `fromisoformat`. -/
def isoformat (t : Nat) : String := String.mk ('D' :: List.replicate t 'i')

/-- Python's `datetime.fromisoformat`: parses exactly the strings `isoformat`
produces, and fails (Python: `ValueError`) on all others. -/
def fromisoformat (s : String) : Option Nat :=
  match s.data with
  | 'D' :: rest => if rest.all (fun c => c = 'i') then some rest.length else none
  | _ => none

/-- The id generator `str(uuid.uuid4())`: a generated identifier, always a non-empty string. -/
def uuid4 (seed : Nat) : String := String.mk ('u' :: Nat.toDigits 10 seed)

/-- A live record: its class name (`type(obj).__name__`) and its instance
`__dict__`.  Class-level default attributes of the variants live on the
class, not in `__dict__` (see `userClassAttrs` below). -/
structure Record where
  cls : String
  attrs : Attrs
deriving DecidableEq, Repr

/-- Python attribute read `obj.k` for keys this code reads dynamically;
raises `AttributeError` when absent from the instance dict. -/
def getAttr (r : Record) (k : String) : Except PyErr Value :=
  match pyLookup k r.attrs with
  | some v => Except.ok v
  | none => Except.error (PyErr.attrErr k)

/-- One keyword argument as processed by `BaseModel.__init__` (source lines
123–127): `created_at`/`updated_at` values must be strings and are parsed
with `fromisoformat`; everything else is taken verbatim. -/
def kwargVal (k : String) (v : Value) : Except PyErr Value :=
  if k = "created_at" ∨ k = "updated_at" then
    match v with
    | Value.str s =>
      match fromisoformat s with
      | some t => Except.ok (Value.dtime t)
      | none => Except.error PyErr.valueErr
    | _ => Except.error PyErr.typeErr
  else Except.ok v

/-- The `for i in kwargs` loop of `BaseModel.__init__` (source lines
119–127), threading the instance dict being built: `__class__` is skipped,
timestamps are parsed, other keys are set verbatim. -/
def initKwargs : Attrs → Attrs → Except PyErr Attrs
  | acc, [] => Except.ok acc
  | acc, (k, v) :: rest =>
    if k = "__class__" then initKwargs acc rest
    else
      match kwargVal k v with
      | Except.ok v' => initKwargs (pyInsert k v' acc) rest
      | Except.error e => Except.error e

/-- Construction `Cls(**kwargs)` for non-empty `kwargs` (the dict branch of
`BaseModel.__init__`); does not register with storage. -/
def fromKwargs (cls : String) (kwargs : Attrs) : Except PyErr Record :=
  match initKwargs [] kwargs with
  | Except.ok a => Except.ok ⟨cls, a⟩
  | Except.error e => Except.error e

/-- Python's `str(v)` as used when formatting the registry key. -/
def pyStr : Value → String
  | Value.str s => s
  | Value.dtime t => isoformat t
  | Value.int n => toString n

/-- The in-memory registry `FileStorage.__objects`. -/
abbrev Registry : Type := PyDict Record

/-- The composite key `"{}.{}".format(obj.__class__.__name__, obj.id)`
derived by `FileStorage.new` (source line 161); `AttributeError` when the
record has no `id`. -/
def objKey (r : Record) : Except PyErr String :=
  match getAttr r "id" with
  | Except.ok v => Except.ok (r.cls ++ "." ++ pyStr v)
  | Except.error e => Except.error e

/-- The method `FileStorage.new` (source lines 161–162): insert the record under its
derived composite key. -/
def newObj (r : Record) (reg : Registry) : Except PyErr Registry :=
  match objKey r with
  | Except.ok k => Except.ok (pyInsert k r reg)
  | Except.error e => Except.error e

/-- The constructor `BaseModel.__init__` (source lines 119–134): with keyword arguments the
record is rebuilt from them; with none (`if kwargs:` is false) a fresh
`id` is generated, `created_at` and `updated_at` are set by two successive
`utcnow()` reads, and the record registers itself via `storage.new`. -/
def baseInit (cls : String) (seed : Nat) (clock : Nat → Nat) (tick : Nat)
    (kwargs : Attrs) (reg : Registry) : Except PyErr (Record × Registry) :=
  if kwargs.isEmpty then
    let r : Record :=
      ⟨cls, pyInsert "updated_at" (Value.dtime (clock (tick + 1)))
            (pyInsert "created_at" (Value.dtime (clock tick))
            (pyInsert "id" (Value.str (uuid4 seed)) []))⟩
    match newObj r reg with
    | Except.ok reg' => Except.ok (r, reg')
    | Except.error e => Except.error e
  else
    match fromKwargs cls kwargs with
    | Except.ok r => Except.ok (r, reg)
    | Except.error e => Except.error e

/-- The spec's `Construct-new`: `BaseModel.__init__` with no arguments. -/
def constructNew (cls : String) (seed : Nat) (clock : Nat → Nat) (tick : Nat)
    (reg : Registry) : Except PyErr (Record × Registry) :=
  baseInit cls seed clock tick [] reg

/-- The method `BaseModel.to_dict` (source lines 238–242): copy `__dict__`, set
`__class__` to the class name, and overwrite the two timestamps with their
`isoformat` strings; `AttributeError` when a timestamp attribute is missing
or is not a `datetime`. -/
def to_dict (r : Record) : Except PyErr Attrs :=
  match pyLookup "created_at" r.attrs with
  | some (Value.dtime tc) =>
    match pyLookup "updated_at" r.attrs with
    | some (Value.dtime tu) =>
      Except.ok (pyInsert "updated_at" (Value.str (isoformat tu))
                (pyInsert "created_at" (Value.str (isoformat tc))
                (pyInsert "__class__" (Value.str r.cls) r.attrs)))
    | _ => Except.error (PyErr.attrErr "updated_at")
  | _ => Except.error (PyErr.attrErr "created_at")

/-- The timestamp update of `BaseModel.save` (source line 188):
`self.updated_at = datetime.utcnow()`. -/
def recordSave (r : Record) (now : Nat) : Record :=
  ⟨r.cls, pyInsert "updated_at" (Value.dtime now) r.attrs⟩

/-- The persisted file: the JSON object `{key: dict}`. -/
abbrev File : Type := PyDict Attrs

/-- The method `FileStorage.save` (source lines 206–210): serialize every registry
value with `to_dict`, keeping the registry keys and their order. -/
def storageSave : Registry → Except PyErr File
  | [] => Except.ok []
  | (k, r) :: rest =>
    match to_dict r with
    | Except.ok d =>
      match storageSave rest with
      | Except.ok f => Except.ok ((k, d) :: f)
      | Except.error e => Except.error e
    | Except.error e => Except.error e

/-- The method `BaseModel.save` (source lines 188–189): update `updated_at` then flush
the whole registry. -/
def modelSave (r : Record) (now : Nat) (reg : Registry) :
    Record × Except PyErr File :=
  (recordSave r now, storageSave reg)

/-- The fixed dispatch table of `FileStorage.reload` (source lines
279–281). -/
def classes : List String :=
  ["BaseModel", "User", "State", "City", "Place", "Amenity", "Review"]

/-- The spec's name for the `KeyError` raised by the dispatch-table lookup
`classes[cls_name]` when the discriminator is unknown. -/
def dispatchError (c : String) : PyErr := PyErr.keyErr c

/-- The `for i in jsdata` loop of `FileStorage.reload` (source lines
284–286): for each file entry, read its `__class__` discriminator
(`KeyError` if absent), look the name up in the dispatch table (`KeyError`
— the spec's `DispatchError` — if unknown), rebuild the record from the
entry's dict, and insert it via `self.new`.  Note the file's own top-level
key is not used for the insertion. -/
def reloadEntries : File → Registry → Except PyErr Registry
  | [], reg => Except.ok reg
  | (_, d) :: rest, reg =>
    match pyLookup "__class__" d with
    | none => Except.error (PyErr.keyErr "__class__")
    | some v =>
      let c := pyStr v
      if c ∈ classes then
        match fromKwargs c d with
        | Except.ok obj =>
          match newObj obj reg with
          | Except.ok reg' => reloadEntries rest reg'
          | Except.error e => Except.error e
        | Except.error e => Except.error e
      else Except.error (dispatchError c)

/-- The method `FileStorage.reload` (source lines 270–288): a missing file
(`FileNotFoundError`, modelled as `none`) is swallowed and the registry is
left untouched; otherwise every entry of the parsed JSON object is loaded
in file order. -/
def reload (file : Option File) (reg : Registry) : Except PyErr Registry :=
  match file with
  | some f => reloadEntries f reg
  | none => Except.ok reg

/-- The class-level default attributes of `User` (source
`models/user.py`).  They live on the class, not in any instance
`__dict__`. -/
def userClassAttrs : Attrs :=
  [("email", Value.str ""), ("password", Value.str ""),
   ("first_name", Value.str ""), ("last_name", Value.str "")]

/-- Order-independent ("field-for-field") equality of transport dicts. -/
def dictEquiv (d1 d2 : Attrs) : Prop := ∀ k, pyLookup k d1 = pyLookup k d2

/-! ## Concrete records and files used to exercise the theorems -/

/-- A user record with an empty-string and a zero field assigned. -/
def rWit : Record :=
  ⟨"User", [("id", Value.str "42"), ("created_at", Value.dtime 3),
    ("updated_at", Value.dtime 5), ("first_name", Value.str ""),
    ("score", Value.int 0)]⟩

/-- The transport dict of `rWit`. -/
def dWit : Attrs :=
  [("id", Value.str "42"), ("created_at", Value.str (isoformat 3)),
   ("updated_at", Value.str (isoformat 5)), ("first_name", Value.str ""),
   ("score", Value.int 0), ("__class__", Value.str "User")]

/-- The file value of the spec's corrupt-discriminator scenario: a record
dict whose `__class__` is the unknown variant name `Ghost`. -/
def ghostEntry : Attrs :=
  [("__class__", Value.str "Ghost"), ("id", Value.str "1"),
   ("created_at", Value.str (isoformat 0)), ("updated_at", Value.str (isoformat 0))]

/-- Two distinct records sharing one id. -/
def aWit : Record := ⟨"User", [("id", Value.str "7")]⟩

/-- Second record with the same variant and id as `aWit`. -/
def bWit : Record := ⟨"User", [("id", Value.str "7"), ("email", Value.str "x")]⟩

/-- A well-formed record dict whose file entry will carry a top-level key
(`Weird.xyz`) that differs from the re-derivable `BaseModel.1`. -/
def weirdEntry : Attrs :=
  [("__class__", Value.str "BaseModel"), ("id", Value.str "1"),
   ("created_at", Value.str (isoformat 0)), ("updated_at", Value.str (isoformat 0))]

/-- A storage file with a single entry whose top-level key is not the
derived `TypeName.id` of its record dict. -/
def weirdFile : File := [("Weird.xyz", weirdEntry)]

/-- The record `reload` reconstructs from `weirdEntry`. -/
def weirdRecord : Record :=
  ⟨"BaseModel", [("id", Value.str "1"), ("created_at", Value.dtime 0),
    ("updated_at", Value.dtime 0)]⟩

/-- A pre-existing registry inhabitant distinct from `weirdRecord`. -/
def oldRec : Record :=
  ⟨"BaseModel", [("id", Value.str "1"), ("created_at", Value.dtime 9),
    ("updated_at", Value.dtime 9)]⟩

/-- A registry holding `oldRec` under its derived key before a reload. -/
def oldReg : Registry := [("BaseModel.1", oldRec)]

/-! ## Basic lemmas about the dict operations -/

theorem pyLookup_pyInsert_self {α : Type} (k : String) (v : α) (l : PyDict α) :
    pyLookup k (pyInsert k v l) = some v := by
  induction l with
  | nil => simp [pyInsert, pyLookup]
  | cons p rest ih =>
    obtain ⟨k', v'⟩ := p
    by_cases h : k' = k <;> simp [pyInsert, pyLookup, h, ih]

theorem pyLookup_pyInsert_of_ne {α : Type} {a k : String} (h : a ≠ k) (v : α)
    (l : PyDict α) : pyLookup a (pyInsert k v l) = pyLookup a l := by
  induction l with
  | nil => simp [pyInsert, pyLookup, Ne.symm h]
  | cons p rest ih =>
    obtain ⟨k', v'⟩ := p
    by_cases hk : k' = k
    · subst hk
      simp [pyInsert, pyLookup, Ne.symm h]
    · by_cases ha : k' = a <;> simp [pyInsert, pyLookup, hk, ha, ih, h]

theorem keysOf_pyInsert_of_mem {α : Type} (k : String) (v : α) :
    ∀ l : PyDict α, k ∈ keysOf l → keysOf (pyInsert k v l) = keysOf l := by
  intro l
  induction l with
  | nil => intro h; cases h
  | cons p rest ih =>
    obtain ⟨k', v'⟩ := p
    intro h
    by_cases hk : k' = k
    · simp [pyInsert, keysOf, hk]
    · have hmem : k ∈ keysOf rest := by
        have h' : k = k' ∨ k ∈ keysOf rest := List.mem_cons.mp h
        exact h'.resolve_left (fun hh => hk hh.symm)
      have hstep : pyInsert k v ((k', v') :: rest) = (k', v') :: pyInsert k v rest := by
        simp [pyInsert, hk]
      rw [hstep]
      show k' :: keysOf (pyInsert k v rest) = k' :: keysOf rest
      rw [ih hmem]

theorem keysOf_pyInsert_of_not_mem {α : Type} (k : String) (v : α) :
    ∀ l : PyDict α, k ∉ keysOf l → keysOf (pyInsert k v l) = keysOf l ++ [k] := by
  intro l
  induction l with
  | nil => intro _; rfl
  | cons p rest ih =>
    obtain ⟨k', v'⟩ := p
    intro h
    have hne : k' ≠ k := fun hh => h (by rw [hh]; exact List.mem_cons_self _ _)
    have hrest : k ∉ keysOf rest := fun hh => h (List.mem_cons_of_mem _ hh)
    have hstep : pyInsert k v ((k', v') :: rest) = (k', v') :: pyInsert k v rest := by
      simp [pyInsert, hne]
    rw [hstep]
    show k' :: keysOf (pyInsert k v rest) = (k' :: keysOf rest) ++ [k]
    rw [ih hrest]
    rfl

theorem mem_keysOf_pyInsert {α : Type} (k : String) (v : α) (l : PyDict α) :
    k ∈ keysOf (pyInsert k v l) := by
  by_cases h : k ∈ keysOf l
  · rw [keysOf_pyInsert_of_mem k v l h]; exact h
  · rw [keysOf_pyInsert_of_not_mem k v l h]; simp

theorem nodup_keysOf_pyInsert {α : Type} {l : PyDict α}
    (h : (keysOf l).Nodup) (k : String) (v : α) :
    (keysOf (pyInsert k v l)).Nodup := by
  by_cases hm : k ∈ keysOf l
  · rwa [keysOf_pyInsert_of_mem k v l hm]
  · rw [keysOf_pyInsert_of_not_mem k v l hm]
    simpa [List.nodup_append] using ⟨h, hm⟩

theorem pyLookup_eq_none_of_not_mem {α : Type} {k : String} {l : PyDict α}
    (h : k ∉ keysOf l) : pyLookup k l = none := by
  induction l with
  | nil => rfl
  | cons p rest ih =>
    obtain ⟨k', v'⟩ := p
    simp [keysOf] at h
    simp [pyLookup, Ne.symm h.1, ih (by simpa [keysOf] using h.2)]

theorem mem_keysOf_of_pyLookup {α : Type} {k : String} {l : PyDict α} {v : α}
    (h : pyLookup k l = some v) : k ∈ keysOf l := by
  by_cases hm : k ∈ keysOf l
  · exact hm
  · rw [pyLookup_eq_none_of_not_mem hm] at h; cases h

theorem fromisoformat_isoformat (t : Nat) : fromisoformat (isoformat t) = some t := by
  have hdata : (isoformat t).data = 'D' :: List.replicate t 'i' := rfl
  simp [fromisoformat, hdata, List.all_eq_true, List.eq_of_mem_replicate]

theorem pyLookup_of_mem_nodup {α : Type} :
    ∀ {l : PyDict α}, (keysOf l).Nodup → ∀ {p : String × α}, p ∈ l →
      pyLookup p.1 l = some p.2 := by
  intro l
  induction l with
  | nil => intro _ p hp; cases hp
  | cons q rest ih =>
    obtain ⟨k', v'⟩ := q
    intro hnd p hp
    have hnd' : k' ∉ keysOf rest ∧ (keysOf rest).Nodup := List.nodup_cons.mp hnd
    rcases List.mem_cons.mp hp with h | h
    · subst h
      simp [pyLookup]
    · have hne : k' ≠ p.1 := by
        intro he
        exact hnd'.1 (he ▸ List.mem_map_of_mem Prod.fst h)
      simp [pyLookup, hne, ih hnd'.2 h]

/-! ## The kwargs loop of `BaseModel.__init__` -/

theorem initKwargs_nil (acc : Attrs) : initKwargs acc [] = Except.ok acc := rfl

theorem initKwargs_cons (acc : Attrs) (k : String) (v : Value) (rest : Attrs) :
    initKwargs acc ((k, v) :: rest) =
      if k = "__class__" then initKwargs acc rest
      else
        match kwargVal k v with
        | Except.ok v' => initKwargs (pyInsert k v' acc) rest
        | Except.error e => Except.error e := rfl

/-- The kwargs loop completes whenever each keyword is either the skipped
`__class__` or has a processable value. -/
theorem initKwargs_ok :
    ∀ kwargs : Attrs,
      (∀ p ∈ kwargs, p.1 = "__class__" ∨ ∃ v', kwargVal p.1 p.2 = Except.ok v') →
      ∀ acc, ∃ res, initKwargs acc kwargs = Except.ok res := by
  intro kwargs
  induction kwargs with
  | nil => exact fun _ acc => ⟨acc, rfl⟩
  | cons p rest ih =>
    obtain ⟨k, v⟩ := p
    intro h acc
    have hrest := fun q hq => h q (List.mem_cons_of_mem _ hq)
    rw [initKwargs_cons]
    by_cases hk : k = "__class__"
    · rw [if_pos hk]; exact ih hrest acc
    · rw [if_neg hk]
      rcases h (k, v) (List.mem_cons_self _ _) with h1 | ⟨v', hv'⟩
      · exact absurd h1 hk
      · simp only [hv']
        exact ih hrest (pyInsert k v' acc)

/-- What the instance dict built by the kwargs loop holds at each key:
keys of the kwargs get their processed value, `__class__` is skipped, and
every other key keeps the accumulator's binding. -/
theorem initKwargs_lookup :
    ∀ kwargs : Attrs, (keysOf kwargs).Nodup →
      ∀ acc res : Attrs, initKwargs acc kwargs = Except.ok res →
      ∀ a : String,
        (a = "__class__" → pyLookup a res = pyLookup a acc) ∧
        (a ≠ "__class__" → pyLookup a kwargs = none →
          pyLookup a res = pyLookup a acc) ∧
        (a ≠ "__class__" → ∀ v, pyLookup a kwargs = some v →
          ∃ v', kwargVal a v = Except.ok v' ∧ pyLookup a res = some v') := by
  intro kwargs
  induction kwargs with
  | nil =>
    intro _ acc res hr a
    rw [initKwargs_nil] at hr
    cases hr
    exact ⟨fun _ => rfl, fun _ _ => rfl, fun _ v hv => by cases hv⟩
  | cons p rest ih =>
    obtain ⟨k, v⟩ := p
    intro hnd acc res hr a
    have hknr : k ∉ keysOf rest := (List.nodup_cons.mp hnd).1
    have hndr : (keysOf rest).Nodup := (List.nodup_cons.mp hnd).2
    rw [initKwargs_cons] at hr
    by_cases hk : k = "__class__"
    · rw [if_pos hk] at hr
      subst hk
      have ihh := ih hndr acc res hr a
      refine ⟨fun ha => ihh.1 ha, fun ha hn => ?_, fun ha v₀ hv => ?_⟩
      · have hka : "__class__" ≠ a := fun he => ha he.symm
        have hn' : pyLookup a rest = none := by
          simpa [pyLookup, hka] using hn
        exact ihh.2.1 ha hn'
      · have hka : "__class__" ≠ a := fun he => ha he.symm
        have hv' : pyLookup a rest = some v₀ := by
          simpa [pyLookup, hka] using hv
        exact ihh.2.2 ha v₀ hv'
    · rw [if_neg hk] at hr
      cases hkv : kwargVal k v with
      | error e => rw [hkv] at hr; cases hr
      | ok v' =>
        rw [hkv] at hr
        have ihh := ih hndr (pyInsert k v' acc) res hr a
        by_cases hak : a = k
        · subst hak
          refine ⟨fun ha => absurd ha hk, fun _ hn => ?_, fun _ v₀ hv => ?_⟩
          · simp [pyLookup] at hn
          · have hv₀ : v₀ = v := by
              have : some v = some v₀ := by simpa [pyLookup] using hv
              exact (Option.some.injEq _ _ ▸ this).symm
            subst hv₀
            refine ⟨v', hkv, ?_⟩
            have hn' : pyLookup a rest = none := pyLookup_eq_none_of_not_mem hknr
            rw [ihh.2.1 hk hn', pyLookup_pyInsert_self]
        · have hka : k ≠ a := fun he => hak he.symm
          have hacc : pyLookup a (pyInsert k v' acc) = pyLookup a acc :=
            pyLookup_pyInsert_of_ne hak v' acc
          refine ⟨fun ha => ?_, fun ha hn => ?_, fun ha v₀ hv => ?_⟩
          · rw [ihh.1 ha, hacc]
          · have hn' : pyLookup a rest = none := by simpa [pyLookup, hka] using hn
            rw [ihh.2.1 ha hn', hacc]
          · have hv' : pyLookup a rest = some v₀ := by simpa [pyLookup, hka] using hv
            exact ihh.2.2 ha v₀ hv'

theorem kwargVal_of_other {k : String} (h : ¬(k = "created_at" ∨ k = "updated_at"))
    (v : Value) : kwargVal k v = Except.ok v := by
  unfold kwargVal
  rw [if_neg h]

theorem kwargVal_of_iso {k : String} (h : k = "created_at" ∨ k = "updated_at")
    (t : Nat) : kwargVal k (Value.str (isoformat t)) = Except.ok (Value.dtime t) := by
  unfold kwargVal
  rw [if_pos h]
  simp [fromisoformat_isoformat]

/-! ## The round-trip law -/

/-- Inversion of a successful `to_dict`: both timestamps were `datetime`
attributes and the transport dict has the exact shape built by the source. -/
theorem to_dict_inv {r : Record} {d : Attrs} (hd : to_dict r = Except.ok d) :
    ∃ tc tu, pyLookup "created_at" r.attrs = some (Value.dtime tc) ∧
      pyLookup "updated_at" r.attrs = some (Value.dtime tu) ∧
      d = pyInsert "updated_at" (Value.str (isoformat tu))
          (pyInsert "created_at" (Value.str (isoformat tc))
          (pyInsert "__class__" (Value.str r.cls) r.attrs)) := by
  unfold to_dict at hd
  cases hc : pyLookup "created_at" r.attrs with
  | none => rw [hc] at hd; cases hd
  | some vc =>
    rw [hc] at hd
    cases vc with
    | str s => cases hd
    | int n => cases hd
    | dtime tc =>
      cases hu : pyLookup "updated_at" r.attrs with
      | none => rw [hu] at hd; cases hd
      | some vu =>
        rw [hu] at hd
        cases vu with
        | str s => cases hd
        | int n => cases hd
        | dtime tu =>
          injection hd with hd
          exact ⟨tc, tu, rfl, rfl, hd.symm⟩

/-- Core round-trip fact: rebuilding a record from its transport dict
succeeds and yields a record whose instance dict agrees with the
original's at every key other than `__class__` (which a Python instance
dict can never contain anyway). -/
theorem roundtrip_attrs {r : Record} {d : Attrs}
    (hnd : (keysOf r.attrs).Nodup)
    (hd : to_dict r = Except.ok d) :
    ∃ r2 : Record, fromKwargs r.cls d = Except.ok r2 ∧ r2.cls = r.cls ∧
      pyLookup "__class__" r2.attrs = none ∧
      ∀ a, a ≠ "__class__" → pyLookup a r2.attrs = pyLookup a r.attrs := by
  obtain ⟨tc, tu, hc, hu, hdef⟩ := to_dict_inv hd
  have hDnd : (keysOf d).Nodup := by
    rw [hdef]
    exact nodup_keysOf_pyInsert (nodup_keysOf_pyInsert (nodup_keysOf_pyInsert hnd _ _) _ _) _ _
  have hDu : pyLookup "updated_at" d = some (Value.str (isoformat tu)) := by
    rw [hdef, pyLookup_pyInsert_self]
  have hDc : pyLookup "created_at" d = some (Value.str (isoformat tc)) := by
    rw [hdef, pyLookup_pyInsert_of_ne (by decide), pyLookup_pyInsert_self]
  have hDcl : pyLookup "__class__" d = some (Value.str r.cls) := by
    rw [hdef, pyLookup_pyInsert_of_ne (by decide),
      pyLookup_pyInsert_of_ne (by decide), pyLookup_pyInsert_self]
  have hDa : ∀ a, a ≠ "updated_at" → a ≠ "created_at" → a ≠ "__class__" →
      pyLookup a d = pyLookup a r.attrs := by
    intro a h1 h2 h3
    rw [hdef, pyLookup_pyInsert_of_ne h1, pyLookup_pyInsert_of_ne h2,
      pyLookup_pyInsert_of_ne h3]
  have hcond : ∀ p ∈ d, p.1 = "__class__" ∨ ∃ v', kwargVal p.1 p.2 = Except.ok v' := by
    intro p hp
    by_cases hcl : p.1 = "__class__"
    · exact Or.inl hcl
    · refine Or.inr ?_
      by_cases hts : p.1 = "created_at" ∨ p.1 = "updated_at"
      · have hlp := pyLookup_of_mem_nodup hDnd hp
        rcases hts with hts | hts
        · rw [hts] at hlp ⊢
          rw [hDc] at hlp
          injection hlp with hlp
          rw [← hlp]
          exact ⟨_, kwargVal_of_iso (Or.inl rfl) tc⟩
        · rw [hts] at hlp ⊢
          rw [hDu] at hlp
          injection hlp with hlp
          rw [← hlp]
          exact ⟨_, kwargVal_of_iso (Or.inr rfl) tu⟩
      · exact ⟨p.2, kwargVal_of_other hts p.2⟩
  obtain ⟨res, hres⟩ := initKwargs_ok d hcond []
  refine ⟨⟨r.cls, res⟩, ?_, rfl, ?_, ?_⟩
  · unfold fromKwargs
    rw [hres]
  · exact (initKwargs_lookup d hDnd [] res hres "__class__").1 rfl
  · intro a ha
    have L := initKwargs_lookup d hDnd [] res hres a
    by_cases ha1 : a = "updated_at"
    · subst ha1
      obtain ⟨v', hkv, hres_a⟩ := L.2.2 ha _ hDu
      rw [kwargVal_of_iso (Or.inr rfl) tu] at hkv
      injection hkv with hkv
      rw [hres_a, ← hkv, hu]
    · by_cases ha2 : a = "created_at"
      · subst ha2
        obtain ⟨v', hkv, hres_a⟩ := L.2.2 ha _ hDc
        rw [kwargVal_of_iso (Or.inl rfl) tc] at hkv
        injection hkv with hkv
        rw [hres_a, ← hkv, hc]
      · have hda := hDa a ha1 ha2 ha
        cases hv : pyLookup a r.attrs with
        | none => rw [L.2.1 ha (hda.trans hv)]; rfl
        | some v =>
          obtain ⟨v', hkv, hres_a⟩ := L.2.2 ha v (hda.trans hv)
          rw [kwargVal_of_other (by tauto) v] at hkv
          injection hkv with hkv
          rw [hres_a, ← hkv]

/-- Two records of the same class whose instance dicts agree off
`__class__` have field-for-field equal transport dicts. -/
theorem to_dict_equiv_of_agree {r r2 : Record} {d : Attrs}
    (hcls : r2.cls = r.cls)
    (hagree : ∀ a, a ≠ "__class__" → pyLookup a r2.attrs = pyLookup a r.attrs)
    (hd : to_dict r = Except.ok d) :
    ∃ d2, to_dict r2 = Except.ok d2 ∧ dictEquiv d2 d := by
  obtain ⟨tc, tu, hc, hu, hdef⟩ := to_dict_inv hd
  have hc2 : pyLookup "created_at" r2.attrs = some (Value.dtime tc) := by
    rw [hagree _ (by decide), hc]
  have hu2 : pyLookup "updated_at" r2.attrs = some (Value.dtime tu) := by
    rw [hagree _ (by decide), hu]
  have hd2 : to_dict r2 = Except.ok
      (pyInsert "updated_at" (Value.str (isoformat tu))
      (pyInsert "created_at" (Value.str (isoformat tc))
      (pyInsert "__class__" (Value.str r2.cls) r2.attrs))) := by
    unfold to_dict
    rw [hc2, hu2]
  refine ⟨_, hd2, ?_⟩
  intro a
  rw [hdef]
  by_cases ha1 : a = "updated_at"
  · subst ha1
    rw [pyLookup_pyInsert_self, pyLookup_pyInsert_self]
  · rw [pyLookup_pyInsert_of_ne ha1, pyLookup_pyInsert_of_ne ha1]
    by_cases ha2 : a = "created_at"
    · subst ha2
      rw [pyLookup_pyInsert_self, pyLookup_pyInsert_self]
    · rw [pyLookup_pyInsert_of_ne ha2, pyLookup_pyInsert_of_ne ha2]
      by_cases ha3 : a = "__class__"
      · subst ha3
        rw [pyLookup_pyInsert_self, pyLookup_pyInsert_self, hcls]
      · rw [pyLookup_pyInsert_of_ne ha3, pyLookup_pyInsert_of_ne ha3]
        exact hagree a ha3

/-- C1: for every record `r` — any variant, arbitrary instance field
assignments including empty-string and zero values — constructing a record
from `r.to_dict()` via the keyword-argument constructor yields `r2` whose
`to_dict()` equals `r.to_dict()` field-for-field, independent of key
order. -/
theorem construct_from_to_dict_roundtrip (r : Record) (d : Attrs)
    (hnd : (keysOf r.attrs).Nodup)
    (hd : to_dict r = Except.ok d) :
    ∃ r2 d2, fromKwargs r.cls d = Except.ok r2 ∧
      to_dict r2 = Except.ok d2 ∧ dictEquiv d2 d := by
  obtain ⟨r2, hfk, hcls, _, hagree⟩ := roundtrip_attrs hnd hd
  obtain ⟨d2, hd2, hequiv⟩ := to_dict_equiv_of_agree hcls hagree hd
  exact ⟨r2, d2, hfk, hd2, hequiv⟩

/-- Witness for C1 on a concrete user record with an empty-string and a
zero field. -/
theorem construct_from_to_dict_roundtrip_witness :
    ∃ r2 d2, fromKwargs rWit.cls dWit = Except.ok r2 ∧
      to_dict r2 = Except.ok d2 ∧ dictEquiv d2 dWit :=
  construct_from_to_dict_roundtrip rWit dWit (by decide) rfl

/-- C7: when the storage file does not exist (`FileNotFoundError`),
`reload()` raises no error and leaves the registry mapping exactly as it
was. -/
theorem reload_absent_file (reg : Registry) : reload none reg = Except.ok reg := rfl

theorem reloadEntries_nil (reg : Registry) : reloadEntries [] reg = Except.ok reg := rfl

theorem reloadEntries_cons (k : String) (d : Attrs) (rest : File) (reg : Registry) :
    reloadEntries ((k, d) :: rest) reg =
      match pyLookup "__class__" d with
      | none => Except.error (PyErr.keyErr "__class__")
      | some v =>
        if pyStr v ∈ classes then
          match fromKwargs (pyStr v) d with
          | Except.ok obj =>
            match newObj obj reg with
            | Except.ok reg' => reloadEntries rest reg'
            | Except.error e => Except.error e
          | Except.error e => Except.error e
        else Except.error (dispatchError (pyStr v)) := rfl

/-- Loading a concatenated file processes the first part first. -/
theorem reloadEntries_append :
    ∀ (pre : File) (reg reg1 : Registry), reloadEntries pre reg = Except.ok reg1 →
      ∀ xs : File, reloadEntries (pre ++ xs) reg = reloadEntries xs reg1 := by
  intro pre
  induction pre with
  | nil =>
    intro reg reg1 h xs
    injection h with h
    rw [List.nil_append, h]
  | cons p rest ih =>
    obtain ⟨k, d⟩ := p
    intro reg reg1 h xs
    rw [List.cons_append, reloadEntries_cons]
    rw [reloadEntries_cons] at h
    cases hcl : pyLookup "__class__" d with
    | none => simp only [hcl] at h; cases h
    | some v =>
      simp only [hcl] at h ⊢
      by_cases hin : pyStr v ∈ classes
      · simp only [if_pos hin] at h ⊢
        cases hfk : fromKwargs (pyStr v) d with
        | error e => simp only [hfk] at h; cases h
        | ok obj =>
          simp only [hfk] at h ⊢
          cases hno : newObj obj reg with
          | error e => simp only [hno] at h; cases h
          | ok reg' =>
            simp only [hno] at h ⊢
            exact ih reg' reg1 h xs
      · simp only [if_neg hin] at h; cases h


/-- C3: when the storage file contains an entry whose `__class__`
discriminator is not a known variant name (and every earlier entry loads),
`reload()` surfaces the dispatch failure — the `KeyError` of the
dispatch-table lookup, the spec's `DispatchError` — instead of silently
skipping the entry. -/
theorem reload_unknown_class_dispatch (pre : File) (k : String) (d : Attrs)
    (rest : File) (reg reg1 : Registry) (c : String)
    (hpre : reloadEntries pre reg = Except.ok reg1)
    (hc : pyLookup "__class__" d = some (Value.str c))
    (hnc : c ∉ classes) :
    reload (some (pre ++ (k, d) :: rest)) reg = Except.error (dispatchError c) := by
  show reloadEntries (pre ++ (k, d) :: rest) reg = Except.error (dispatchError c)
  rw [reloadEntries_append pre reg reg1 hpre, reloadEntries_cons]
  simp only [hc, pyStr]
  rw [if_neg hnc]

/-- Witness for C3: the spec's concrete scenario, a single entry keyed
`Ghost.1` with unknown discriminator `Ghost`. -/
theorem reload_unknown_class_dispatch_witness :
    reload (some [("Ghost.1", ghostEntry)]) [] = Except.error (dispatchError "Ghost") :=
  reload_unknown_class_dispatch [] "Ghost.1" ghostEntry [] [] [] "Ghost" rfl rfl
    (by decide)

/-- C4: `new(a)` then `new(b)` for two same-variant records with equal ids
leaves exactly one registry entry under that composite key, holding `b`
(last write wins), and neither call errors. -/
theorem new_last_write_wins (a b : Record) (reg : Registry) (v : Value)
    (hnd : (keysOf reg).Nodup)
    (hcls : a.cls = b.cls)
    (ha : getAttr a "id" = Except.ok v)
    (hb : getAttr b "id" = Except.ok v) :
    ∃ reg1 reg2 k, newObj a reg = Except.ok reg1 ∧ newObj b reg1 = Except.ok reg2 ∧
      objKey b = Except.ok k ∧
      pyLookup k reg2 = some b ∧ (keysOf reg2).count k = 1 := by
  have hkb : objKey b = Except.ok (b.cls ++ "." ++ pyStr v) := by
    unfold objKey
    rw [hb]
  have hka : objKey a = Except.ok (b.cls ++ "." ++ pyStr v) := by
    unfold objKey
    rw [ha, hcls]
  refine ⟨pyInsert (b.cls ++ "." ++ pyStr v) a reg,
    pyInsert (b.cls ++ "." ++ pyStr v) b (pyInsert (b.cls ++ "." ++ pyStr v) a reg),
    b.cls ++ "." ++ pyStr v, ?_, ?_, hkb, ?_, ?_⟩
  · unfold newObj
    rw [hka]
  · unfold newObj
    rw [hkb]
  · exact pyLookup_pyInsert_self _ _ _
  · have h1 := nodup_keysOf_pyInsert hnd (b.cls ++ "." ++ pyStr v) a
    have h2 := nodup_keysOf_pyInsert h1 (b.cls ++ "." ++ pyStr v) b
    exact List.count_eq_one_of_mem h2
      (mem_keysOf_pyInsert (b.cls ++ "." ++ pyStr v) b _)

/-- Witness for C4 on two concrete user records sharing id `7`. -/
theorem new_last_write_wins_witness :
    ∃ reg1 reg2 k, newObj aWit [] = Except.ok reg1 ∧
      newObj bWit reg1 = Except.ok reg2 ∧ objKey bWit = Except.ok k ∧
      pyLookup k reg2 = some bWit ∧ (keysOf reg2).count k = 1 :=
  new_last_write_wins aWit bWit [] (Value.str "7") (by decide) rfl rfl rfl

/-- A successful `to_dict` always stores the class name under `__class__`. -/
theorem to_dict_class_lookup {r : Record} {d : Attrs}
    (hd : to_dict r = Except.ok d) :
    pyLookup "__class__" d = some (Value.str r.cls) := by
  obtain ⟨tc, tu, _, _, hdef⟩ := to_dict_inv hd
  rw [hdef, pyLookup_pyInsert_of_ne (by decide),
    pyLookup_pyInsert_of_ne (by decide), pyLookup_pyInsert_self]

/-- Inversion of a successful `objKey`. -/
theorem objKey_inv {r : Record} {k : String} (h : objKey r = Except.ok k) :
    ∃ v, pyLookup "id" r.attrs = some v ∧ k = r.cls ++ "." ++ pyStr v := by
  unfold objKey getAttr at h
  cases hv : pyLookup "id" r.attrs with
  | none => rw [hv] at h; cases h
  | some v =>
    rw [hv] at h
    injection h with h
    exact ⟨v, rfl, h.symm⟩

/-- Inserting a fresh key appends it. -/
theorem pyInsert_eq_append {α : Type} :
    ∀ {l : PyDict α} {k : String}, k ∉ keysOf l → ∀ v : α,
      pyInsert k v l = l ++ [(k, v)] := by
  intro l
  induction l with
  | nil => intro k _ v; rfl
  | cons p rest ih =>
    obtain ⟨k', v'⟩ := p
    intro k h v
    have hne : k' ≠ k := fun hh => h (hh ▸ List.mem_cons_self _ _)
    have hrest : k ∉ keysOf rest := fun hh => h (List.mem_cons_of_mem _ hh)
    show (if k' = k then _ else _) = _
    rw [if_neg hne, ih hrest v]
    rfl

/-- C10: a freshly constructed record of any variant has a transport dict
whose key list is exactly `id`, `created_at`, `updated_at`, `__class__`;
in particular none of the variant-level defaulted fields (a user's
`email`, `password`, `first_name`, `last_name`) appear in it. -/
theorem constructNew_to_dict_keys (cls : String) (seed : Nat) (clock : Nat → Nat)
    (tick : Nat) (reg : Registry) :
    ∃ r reg' d, constructNew cls seed clock tick reg = Except.ok (r, reg') ∧
      to_dict r = Except.ok d ∧
      keysOf d = ["id", "created_at", "updated_at", "__class__"] ∧
      ∀ p ∈ userClassAttrs, p.1 ∉ keysOf d := by
  have main : ∃ r reg' d, constructNew cls seed clock tick reg = Except.ok (r, reg') ∧
      to_dict r = Except.ok d ∧
      keysOf d = ["id", "created_at", "updated_at", "__class__"] :=
    ⟨_, _, _, rfl, rfl, rfl⟩
  obtain ⟨r, reg', d, h1, h2, h3⟩ := main
  refine ⟨r, reg', d, h1, h2, h3, ?_⟩
  rw [h3]
  decide

/-- C6 counterexample: with a clock that advances between the two
`utcnow()` reads of `BaseModel.__init__` (source lines 131–132), the
freshly constructed record has `created_at ≠ updated_at`, refuting the
claimed equality at the instant of construction. -/
theorem constructNew_equal_timestamps_cex :
    constructNew "BaseModel" 0 (fun t => t) 0 [] =
      Except.ok (⟨"BaseModel",
        [("id", Value.str (uuid4 0)), ("created_at", Value.dtime 0),
         ("updated_at", Value.dtime 1)]⟩,
        [("BaseModel." ++ uuid4 0, ⟨"BaseModel",
          [("id", Value.str (uuid4 0)), ("created_at", Value.dtime 0),
           ("updated_at", Value.dtime 1)]⟩)]) ∧
    pyLookup "created_at"
        [("id", Value.str (uuid4 0)), ("created_at", Value.dtime 0),
         ("updated_at", Value.dtime 1)] ≠
      pyLookup "updated_at"
        [("id", Value.str (uuid4 0)), ("created_at", Value.dtime 0),
         ("updated_at", Value.dtime 1)] :=
  ⟨rfl, by decide⟩

/-- C6 (amended): `Construct-new` yields a record whose `id` is the
non-empty generated uuid string, whose `created_at` and `updated_at` are
two successive clock reads — hence `created_at ≤ updated_at` under a
monotone clock, with equality exactly when the clock does not advance
between the reads — and registers the record with the registry via `new`
under its derived composite key. -/
theorem constructNew_spec (cls : String) (seed : Nat) (clock : Nat → Nat)
    (tick : Nat) (reg : Registry) (hm : Monotone clock) :
    ∃ r reg', constructNew cls seed clock tick reg = Except.ok (r, reg') ∧
      pyLookup "id" r.attrs = some (Value.str (uuid4 seed)) ∧
      uuid4 seed ≠ "" ∧
      pyLookup "created_at" r.attrs = some (Value.dtime (clock tick)) ∧
      pyLookup "updated_at" r.attrs = some (Value.dtime (clock (tick + 1))) ∧
      clock tick ≤ clock (tick + 1) ∧
      reg' = pyInsert (cls ++ "." ++ uuid4 seed) r reg := by
  have huid : uuid4 seed ≠ "" := by
    intro h
    have h' := congrArg String.data h
    simp [uuid4] at h'
  exact ⟨_, _, rfl, rfl, huid, rfl, rfl, hm (Nat.le_succ tick), rfl⟩

/-- Witness for the amended C6 at a constant (hence monotone) clock. -/
theorem constructNew_spec_witness :
    ∃ r reg', constructNew "User" 3 (fun _ => 5) 0 [] = Except.ok (r, reg') ∧
      pyLookup "id" r.attrs = some (Value.str (uuid4 3)) ∧
      uuid4 3 ≠ "" ∧
      pyLookup "created_at" r.attrs = some (Value.dtime 5) ∧
      pyLookup "updated_at" r.attrs = some (Value.dtime 5) ∧
      (5 : Nat) ≤ 5 ∧
      reg' = pyInsert ("User" ++ "." ++ uuid4 3) r [] :=
  constructNew_spec "User" 3 (fun _ => 5) 0 [] monotone_const

/-- C5: `save()` sets `updated_at` to the current clock read and leaves
`created_at` alone; when the record's timestamps came from earlier reads
of a monotone clock, the new `updated_at` is `≥ created_at` and `≥` the
`updated_at` it replaces. -/
theorem save_monotone_timestamps (clock : Nat → Nat) (hm : Monotone clock)
    (r : Record) (reg : Registry) (i j tick : Nat)
    (hc : pyLookup "created_at" r.attrs = some (Value.dtime (clock i)))
    (_hu : pyLookup "updated_at" r.attrs = some (Value.dtime (clock j)))
    (hi : i ≤ tick) (hj : j ≤ tick) :
    pyLookup "created_at" (modelSave r (clock tick) reg).1.attrs =
        some (Value.dtime (clock i)) ∧
    pyLookup "updated_at" (modelSave r (clock tick) reg).1.attrs =
        some (Value.dtime (clock tick)) ∧
    clock i ≤ clock tick ∧ clock j ≤ clock tick := by
  refine ⟨?_, ?_, hm hi, hm hj⟩
  · show pyLookup "created_at"
      (pyInsert "updated_at" (Value.dtime (clock tick)) r.attrs) = _
    rw [pyLookup_pyInsert_of_ne (by decide), hc]
  · exact pyLookup_pyInsert_self _ _ _

/-- Witness for C5 on a concrete record whose timestamps are clock reads
3 and 5, saved at clock read 6. -/
theorem save_monotone_timestamps_witness :
    pyLookup "created_at" (modelSave rWit 6 []).1.attrs = some (Value.dtime 3) ∧
    pyLookup "updated_at" (modelSave rWit 6 []).1.attrs = some (Value.dtime 6) ∧
    (3 : Nat) ≤ 6 ∧ (5 : Nat) ≤ 6 :=
  save_monotone_timestamps (fun t => t) monotone_id rWit [] 3 5 6 rfl rfl
    (by decide) (by decide)

/-- C8 counterexample: the file's top-level key is NOT reused.  Loading a
file whose single entry is keyed `Weird.xyz` (a key that differs from the
re-derived `BaseModel.1`) produces a registry containing `BaseModel.1` and
not `Weird.xyz`: `reload` inserts through `self.new` (source line 286),
which re-derives the key, rather than bypassing `new` as claimed. -/
theorem reload_key_verbatim_cex :
    reload (some weirdFile) [] = Except.ok [("BaseModel.1", weirdRecord)] ∧
    pyLookup "Weird.xyz" [("BaseModel.1", weirdRecord)] = none ∧
    pyLookup "BaseModel.1" [("BaseModel.1", weirdRecord)] = some weirdRecord :=
  ⟨rfl, rfl, rfl⟩

/-- C8 (amended): `reload()` inserts every reconstructed record via `new`,
so each key present in the registry after a successful reload is either a
pre-existing key or the composite key `TypeName.id` re-derived from a
record constructed out of some file entry's dict — the file's own
top-level keys are ignored. -/
theorem reload_keys_rederived :
    ∀ (f : File) (reg reg' : Registry), reloadEntries f reg = Except.ok reg' →
      ∀ k, k ∈ keysOf reg' → k ∈ keysOf reg ∨
        ∃ d ∈ f.map Prod.snd, ∃ c obj, pyLookup "__class__" d = some c ∧
          fromKwargs (pyStr c) d = Except.ok obj ∧ objKey obj = Except.ok k := by
  intro f
  induction f with
  | nil =>
    intro reg reg' h k hk
    injection h with h
    exact Or.inl (h ▸ hk)
  | cons p rest ih =>
    obtain ⟨k0, d⟩ := p
    intro reg reg' h k hk
    rw [reloadEntries_cons] at h
    cases hcl : pyLookup "__class__" d with
    | none => simp only [hcl] at h; cases h
    | some v =>
      simp only [hcl] at h
      by_cases hin : pyStr v ∈ classes
      · simp only [if_pos hin] at h
        cases hfk : fromKwargs (pyStr v) d with
        | error e => simp only [hfk] at h; cases h
        | ok obj =>
          simp only [hfk] at h
          cases hno : newObj obj reg with
          | error e => simp only [hno] at h; cases h
          | ok reg1 =>
            simp only [hno] at h
            rcases ih reg1 reg' h k hk with hmem | ⟨d', hd', c, obj', h1, h2, h3⟩
            · -- k is a key of the registry after the first insertion
              unfold newObj at hno
              cases hok : objKey obj with
              | error e => rw [hok] at hno; cases hno
              | ok kd =>
                rw [hok] at hno
                injection hno with hno
                rw [← hno] at hmem
                by_cases hk0 : kd ∈ keysOf reg
                · rw [keysOf_pyInsert_of_mem kd obj reg hk0] at hmem
                  exact Or.inl hmem
                · rw [keysOf_pyInsert_of_not_mem kd obj reg hk0] at hmem
                  rcases List.mem_append.mp hmem with hmem | hmem
                  · exact Or.inl hmem
                  · have hkkd : k = kd := List.mem_singleton.mp hmem
                    exact Or.inr ⟨d, List.mem_cons_self _ _, v, obj, hcl, hfk,
                      hkkd ▸ hok⟩
            · exact Or.inr ⟨d', List.mem_cons_of_mem _ hd', c, obj', h1, h2, h3⟩
      · simp only [if_neg hin] at h; cases h

/-- Witness for the amended C8: the registry key `BaseModel.1` produced by
loading `weirdFile` is the re-derived key of the reconstructed record. -/
theorem reload_keys_rederived_witness :
    "BaseModel.1" ∈ keysOf ([] : Registry) ∨
      ∃ d ∈ weirdFile.map Prod.snd, ∃ c obj,
        pyLookup "__class__" d = some c ∧
        fromKwargs (pyStr c) d = Except.ok obj ∧
        objKey obj = Except.ok "BaseModel.1" :=
  reload_keys_rederived weirdFile [] [("BaseModel.1", weirdRecord)] rfl
    "BaseModel.1" (by decide)

/-- C9 counterexample: a pre-existing entry whose key (`BaseModel.1`) is
absent from the storage file's keys (`Weird.xyz` only) is nevertheless
replaced by `reload()`, because the loaded record's re-derived key
collides with it. -/
theorem reload_frame_cex :
    reload (some weirdFile) oldReg = Except.ok [("BaseModel.1", weirdRecord)] ∧
    ("BaseModel.1" ∈ keysOf weirdFile → False) ∧
    pyLookup "BaseModel.1" oldReg = some oldRec ∧
    oldRec ≠ weirdRecord :=
  ⟨rfl, by decide, rfl, by decide⟩

/-- C9 (amended): `reload()` merges into the registry without clearing it:
every pre-existing entry whose key differs from the re-derived composite
key of every record loaded from the file is still present, unchanged,
after `reload()` returns. -/
theorem reload_preserves_other_keys :
    ∀ (f : File) (reg reg' : Registry), reloadEntries f reg = Except.ok reg' →
      ∀ k, (∀ d ∈ f.map Prod.snd, ∀ c obj, pyLookup "__class__" d = some c →
            fromKwargs (pyStr c) d = Except.ok obj →
            objKey obj ≠ Except.ok k) →
        pyLookup k reg' = pyLookup k reg := by
  intro f
  induction f with
  | nil =>
    intro reg reg' h k _
    injection h with h
    rw [h]
  | cons p rest ih =>
    obtain ⟨k0, d⟩ := p
    intro reg reg' h k hcond
    rw [reloadEntries_cons] at h
    cases hcl : pyLookup "__class__" d with
    | none => simp only [hcl] at h; cases h
    | some v =>
      simp only [hcl] at h
      by_cases hin : pyStr v ∈ classes
      · simp only [if_pos hin] at h
        cases hfk : fromKwargs (pyStr v) d with
        | error e => simp only [hfk] at h; cases h
        | ok obj =>
          simp only [hfk] at h
          cases hno : newObj obj reg with
          | error e => simp only [hno] at h; cases h
          | ok reg1 =>
            simp only [hno] at h
            have hrest : pyLookup k reg' = pyLookup k reg1 :=
              ih reg1 reg' h k
                (fun d' hd' c obj' h1 h2 =>
                  hcond d' (List.mem_cons_of_mem _ hd') c obj' h1 h2)
            rw [hrest]
            unfold newObj at hno
            cases hok : objKey obj with
            | error e => rw [hok] at hno; cases hno
            | ok kd =>
              rw [hok] at hno
              injection hno with hno
              have hne : k ≠ kd := by
                intro he
                exact hcond d (List.mem_cons_self _ _) v obj hcl hfk (he ▸ hok)
              rw [← hno, pyLookup_pyInsert_of_ne hne]
      · simp only [if_neg hin] at h; cases h

/-- Witness for the amended C9: the key `User.9`, which no loaded record
re-derives, keeps its (absent) binding across a reload of `weirdFile` over
`oldReg`. -/
theorem reload_preserves_other_keys_witness :
    pyLookup "User.9" [("BaseModel.1", weirdRecord)] = pyLookup "User.9" oldReg := by
  refine reload_preserves_other_keys weirdFile oldReg
    [("BaseModel.1", weirdRecord)] rfl "User.9" ?_
  intro d hd c obj h1 h2
  have hdd : d = weirdEntry := List.mem_singleton.mp hd
  subst hdd
  have hc : Value.str "BaseModel" = c := by injection h1
  subst hc
  have hobj : weirdRecord = obj := by injection h2
  subst hobj
  intro hkey
  injection hkey with hkey
  exact absurd hkey (by decide)

theorem keysOf_append {α : Type} (l1 l2 : PyDict α) :
    keysOf (l1 ++ l2) = keysOf l1 ++ keysOf l2 := List.map_append _ _ _

theorem storageSave_cons (k : String) (r : Record) (rest : Registry) :
    storageSave ((k, r) :: rest) =
      match to_dict r with
      | Except.ok d =>
        match storageSave rest with
        | Except.ok f => Except.ok ((k, d) :: f)
        | Except.error e => Except.error e
      | Except.error e => Except.error e := rfl

/-- Accumulator-generalized save/reload round trip: reloading the file
written by `save` appends, in order, one reconstructed record per registry
entry, each under the same composite key and with a field-for-field equal
transport dict. -/
theorem reload_of_save_aux :
    ∀ (reg : Registry) (file : File),
      (keysOf reg).Nodup →
      (∀ p ∈ reg, (keysOf (Prod.snd p : Record).attrs).Nodup) →
      (∀ p ∈ reg, objKey p.2 = Except.ok p.1) →
      (∀ p ∈ reg, (Prod.snd p : Record).cls ∈ classes) →
      storageSave reg = Except.ok file →
      ∀ acc : Registry, (∀ p ∈ reg, p.1 ∉ keysOf acc) →
        ∃ ents : Registry, reloadEntries file acc = Except.ok (acc ++ ents) ∧
          keysOf ents = keysOf reg ∧
          List.Forall₂ (fun p q => p.1 = q.1 ∧
            ∃ d d', to_dict p.2 = Except.ok d ∧ to_dict q.2 = Except.ok d' ∧
              dictEquiv d' d) reg ents := by
  intro reg
  induction reg with
  | nil =>
    intro file _ _ _ _ hs acc _
    injection hs with hs
    subst hs
    exact ⟨[], by rw [reloadEntries_nil, List.append_nil], rfl, List.Forall₂.nil⟩
  | cons p rest ih =>
    obtain ⟨k, r⟩ := p
    intro file hnd hattrs hkeys hcls hs acc hacc
    rw [storageSave_cons] at hs
    cases hd : to_dict r with
    | error e => simp only [hd] at hs; cases hs
    | ok d =>
      simp only [hd] at hs
      cases hsr : storageSave rest with
      | error e => simp only [hsr] at hs; cases hs
      | ok f' =>
        simp only [hsr] at hs
        injection hs with hs
        subst hs
        have hclsr : r.cls ∈ classes := hcls (k, r) (List.mem_cons_self _ _)
        have hndr : (keysOf r.attrs).Nodup := hattrs (k, r) (List.mem_cons_self _ _)
        have hkr : objKey r = Except.ok k := hkeys (k, r) (List.mem_cons_self _ _)
        have hacck : k ∉ keysOf acc := hacc (k, r) (List.mem_cons_self _ _)
        obtain ⟨r2, hfk, hcls2, _, hagree⟩ := roundtrip_attrs hndr hd
        obtain ⟨d2, hd2, hequiv⟩ := to_dict_equiv_of_agree hcls2 hagree hd
        have hdcl : pyLookup "__class__" d = some (Value.str r.cls) :=
          to_dict_class_lookup hd
        obtain ⟨v, hv, hkv⟩ := objKey_inv hkr
        have hv2 : pyLookup "id" r2.attrs = some v := by
          rw [hagree "id" (by decide), hv]
        have hk2 : objKey r2 = Except.ok k := by
          unfold objKey getAttr
          simp only [hv2]
          rw [hcls2]
          exact congrArg Except.ok hkv.symm
        have hacc' : ∀ q ∈ rest, q.1 ∉ keysOf (acc ++ [(k, r2)]) := by
          intro q hq hmem
          rcases List.mem_append.mp ((keysOf_append acc [(k, r2)]) ▸ hmem) with h | h
          · exact hacc q (List.mem_cons_of_mem _ hq) h
          · have hq1 : q.1 = k := List.mem_singleton.mp h
            have : k ∈ keysOf rest := hq1 ▸ List.mem_map_of_mem Prod.fst hq
            exact (List.nodup_cons.mp hnd).1 this
        obtain ⟨ents', hre, hke, hfa⟩ := ih f' (List.nodup_cons.mp hnd).2
          (fun q hq => hattrs q (List.mem_cons_of_mem _ hq))
          (fun q hq => hkeys q (List.mem_cons_of_mem _ hq))
          (fun q hq => hcls q (List.mem_cons_of_mem _ hq))
          hsr (acc ++ [(k, r2)]) hacc'
        refine ⟨(k, r2) :: ents', ?_, ?_, ?_⟩
        · rw [reloadEntries_cons]
          simp only [hdcl, pyStr]
          rw [if_pos hclsr]
          simp only [hfk]
          have hno : newObj r2 acc = Except.ok (pyInsert k r2 acc) := by
            unfold newObj
            simp only [hk2]
          simp only [hno]
          rw [pyInsert_eq_append hacck r2, hre, List.append_assoc]
          rfl
        · exact congrArg (k :: ·) hke
        · exact List.Forall₂.cons ⟨rfl, d, d2, hd, hd2, hequiv⟩ hfa

/-- C2: `save()` followed by `reload()` into a fresh, empty registry
reconstructs a registry with the same composite keys (even in the same
order) whose every record has a transport dict field-for-field equal to
its pre-save counterpart's.  The hypotheses are the invariants every
reachable registry satisfies: distinct keys, each key derived from its
record by `new`, Python-dict instance attributes, known variants. -/
theorem save_then_reload_fresh (reg : Registry) (file : File)
    (hnd : (keysOf reg).Nodup)
    (hattrs : ∀ p ∈ reg, (keysOf (Prod.snd p : Record).attrs).Nodup)
    (hkeys : ∀ p ∈ reg, objKey p.2 = Except.ok p.1)
    (hcls : ∀ p ∈ reg, (Prod.snd p : Record).cls ∈ classes)
    (hs : storageSave reg = Except.ok file) :
    ∃ reg', reload (some file) [] = Except.ok reg' ∧
      keysOf reg' = keysOf reg ∧
      List.Forall₂ (fun p q => p.1 = q.1 ∧
        ∃ d d', to_dict p.2 = Except.ok d ∧ to_dict q.2 = Except.ok d' ∧
          dictEquiv d' d) reg reg' := by
  obtain ⟨ents, hre, hke, hfa⟩ := reload_of_save_aux reg file hnd hattrs hkeys hcls hs
    [] (fun p _ => List.not_mem_nil _)
  exact ⟨ents, hre, hke, hfa⟩

/-- Witness for C2 on a one-record registry holding `rWit` under its
derived key. -/
theorem save_then_reload_fresh_witness :
    ∃ reg', reload (some [("User.42", dWit)]) [] = Except.ok reg' ∧
      keysOf reg' = keysOf [("User.42", rWit)] ∧
      List.Forall₂ (fun p q => p.1 = q.1 ∧
        ∃ d d', to_dict p.2 = Except.ok d ∧ to_dict q.2 = Except.ok d' ∧
          dictEquiv d' d) [("User.42", rWit)] reg' :=
  save_then_reload_fresh [("User.42", rWit)] [("User.42", dWit)]
    (by decide) (by decide)
    (by
      intro p hp
      have hp' : p = ("User.42", rWit) := List.mem_singleton.mp hp
      subst hp'
      rfl)
    (by decide) rfl

end HBnB
